import Mathlib

/-!
Shallow embedding of the payment-allocation and invoice-reconciliation ledger
of the Hotel-AR back office.

Monetary values are embedded as rationals; the JavaScript source stores them
as IEEE numbers, but every claim under scrutiny is about the monetary logic
(sums, comparisons against a fixed epsilon, clamping), which the source
manipulates through ordinary field arithmetic, so exact rationals are the
faithful model of the intended arithmetic.  Database rows are lists of
records; a `deleted` flag models a non-null `deleted_at` column.  Row ids are
natural numbers standing for the uuid strings of the source.
-/

namespace HotelAR

/-- Invoice row: the columns of `public.invoices` (supabase/schema.sql) that the
ledger logic reads or writes.  `total` is a generated column `subtotal + tax`
and is therefore a function, not a field.  `deleted` models
`deleted_at IS NOT NULL` (tombstone). -/
structure Invoice where
  id : Nat
  subtotal : ℚ
  tax : ℚ
  balance : ℚ
  status : String
  deleted : Bool
deriving DecidableEq, Repr

/-- Generated column `total numeric DEFAULT (subtotal + tax)` of `public.invoices`. -/
def Invoice.total (i : Invoice) : ℚ := i.subtotal + i.tax

/-- Payment row: the columns of `public.payments` used by the ledger logic. -/
structure Payment where
  id : Nat
  amount : ℚ
  method : String
  reference : String
deriving DecidableEq, Repr

/-- Allocation row: the columns of `public.allocations` used by the ledger
logic.  The database-generated `id` column is never read by any embedded
operation and is omitted.  `deleted` models `deleted_at IS NOT NULL`. -/
structure Allocation where
  payment_id : Nat
  invoice_id : Nat
  amount : ℚ
  deleted : Bool
deriving DecidableEq, Repr

/-- Audit row: the columns of `public.invoice_audit` that the embedded
operations write (`action`, `note`, and the `old_total`/`new_total` fields of
the `details` jsonb payload). -/
structure AuditEvent where
  invoice_id : Nat
  action : String
  note : Option String
  old_total : Option ℚ
  new_total : Option ℚ
deriving DecidableEq, Repr

/-- The ledger tables. -/
structure DB where
  invoices : List Invoice
  payments : List Payment
  allocations : List Allocation
  audit : List AuditEvent
deriving DecidableEq, Repr

/-- Sum of active (non-soft-deleted) allocation amounts for one invoice.
Mirrors the query pattern
`from('allocations').select('amount').eq('invoice_id', id).is('deleted_at', null)`
followed by `reduce((s, a) => s + Number(a.amount || 0), 0)` used by
`allocatedSum` and by `updateTotal` in app/invoices/[id]/problems/page.tsx. -/
def activeAllocSumInvoice (db : DB) (invId : Nat) : ℚ :=
  ((db.allocations.filter (fun a => a.invoice_id == invId && !a.deleted)).map
    Allocation.amount).sum

/-- Sum of active allocation amounts carried by one payment (the applied sum of
the payments page, and the quantity bounded by the spec invariant for
payments). -/
def activeAllocSumPayment (db : DB) (payId : Nat) : ℚ :=
  ((db.allocations.filter (fun a => a.payment_id == payId && !a.deleted)).map
    Allocation.amount).sum

/-- Remaining allocatable room of a payment: `payment.amount` minus its active
allocation sum (what the spec calls the room that grows back when allocations
are removed). -/
def paymentRoom (db : DB) (p : Payment) : ℚ := p.amount - activeAllocSumPayment db p.id

/-- Invariant of spec section 8: stored balance equals
`max(0, total - sum of active allocations)`. -/
def balanceInvariant (db : DB) (i : Invoice) : Prop :=
  i.balance = max 0 (i.total - activeAllocSumInvoice db i.id)

/-- Modelled from the spec: the body of the `log_invoice_event` database
function is not in the repository (only its callers in
app/invoices/[id]/problems/page.tsx are).  Per spec section 4.5, Record is an
append-only insert of one immutable audit event. -/
def log_invoice_event (db : DB) (invId : Nat) (action : String) (note : Option String)
    (old_total new_total : Option ℚ) : DB :=
  { db with audit := db.audit ++ [⟨invId, action, note, old_total, new_total⟩] }

/-- Status derivation inside `updateTotal`
(app/invoices/[id]/problems/page.tsx lines 710 to 714):
`newTotal === 0 ? 'void' : paid <= 0 ? 'open' : paid < newTotal ? 'partial' : 'paid'`. -/
def deriveStatusUpdateTotal (newTotal paid : ℚ) : String :=
  if newTotal = 0 then "void"
  else if paid ≤ 0 then "open"
  else if paid < newTotal then "partial"
  else "paid"

/-- `updateTotal` (app/invoices/[id]/problems/page.tsx lines 692 to 735).
The prompt parse rejects a non-finite or negative number (rationals are always
finite, so only negativity remains); `paid` is the active allocation sum; the
update writes `subtotal := newTotal, tax := 0, balance, status` to the
non-tombstoned row and reports failure when no row matched; on success one
`update_total` audit event is logged with the old and new totals.  Returns the
new state and a success flag (`false` leaves the state unchanged, matching the
early returns of the source). -/
def updateTotal (db : DB) (invId : Nat) (newTotal : ℚ) : DB × Bool :=
  if newTotal < 0 then (db, false)
  else
    let paid := activeAllocSumInvoice db invId
    let newBalance := max 0 (newTotal - paid)
    let newStatus := deriveStatusUpdateTotal newTotal paid
    if db.invoices.any (fun i => i.id == invId && !i.deleted) then
      let oldTotal :=
        ((db.invoices.find? (fun i => i.id == invId && !i.deleted)).map Invoice.total).getD 0
      let db1 := { db with invoices := db.invoices.map (fun i =>
        if i.id == invId && !i.deleted then
          { i with subtotal := newTotal, tax := 0, balance := newBalance, status := newStatus }
        else i) }
      (log_invoice_event db1 invId "update_total" none (some oldTotal) (some newTotal), true)
    else (db, false)

/-- `voidInvoice` (app/invoices/[id]/problems/page.tsx lines 737 to 775).
First hard-deletes every allocation row of the invoice
(`from('allocations').delete().eq('invoice_id', id)`), then updates the
non-tombstoned invoice row to `status := void, subtotal := 0, tax := 0,
balance := 0`; on success one `void_invoice` audit event is logged with
`p_note: reason || null` (the empty prompt answer becomes a null note).
Returns the new state and a success flag; when the invoice update matches no
row the allocations have already been removed, exactly as in the source. -/
def voidInvoice (db : DB) (invId : Nat) (reason : String) : DB × Bool :=
  let db1 := { db with allocations := db.allocations.filter (fun a => !(a.invoice_id == invId)) }
  if db1.invoices.any (fun i => i.id == invId && !i.deleted) then
    let db2 := { db1 with invoices := db1.invoices.map (fun i =>
      if i.id == invId && !i.deleted then
        { i with status := "void", subtotal := 0, tax := 0, balance := 0 }
      else i) }
    (log_invoice_event db2 invId "void_invoice"
      (if reason = "" then none else some reason) none none, true)
  else (db1, false)

/-- `deletePayment` (app/payments/page.tsx lines 319 to 333).  After the user
confirms the dialog (which warns "This will also delete its allocations"), the
allocations of the payment are hard-deleted and then the payment row itself;
there is no precondition check and no error for live allocations. -/
def deletePayment (db : DB) (payId : Nat) : DB :=
  let db1 := { db with allocations := db.allocations.filter (fun a => !(a.payment_id == payId)) }
  { db1 with payments := db1.payments.filter (fun p => !(p.id == payId)) }

/-- Fixed tolerance of the payment-side over-allocation check in the payment
form (part of `onSubmit`): `allocatedTotal > values.amount + 1e-6`. -/
def paymentEpsilon : ℚ := 1 / 1000000

/-- Modelled from the spec: the body of the `api_insert_payment` database
function is not in the repository (only its caller in the payment form is).
Per the spec data model, a Payment is created standalone, not tied to any
invoice; the call inserts one payment row and returns its id. -/
def api_insert_payment (db : DB) (newId : Nat) (method reference : String)
    (amount : ℚ) : DB :=
  { db with payments := db.payments ++ [⟨newId, amount, method, reference⟩] }

/-- Result discriminator for the payment-form submission: the alert path when
more is allocated than the payment amount, the error path when the allocation
insert fails, and the success path that navigates back to the invoices page. -/
inductive ApplyResult
  | overalloc
  | insertErr
  | ok
deriving DecidableEq, Repr

/-- The allocation rows built by `onSubmit` of the payment form:
`Object.entries(alloc).map(([invoice_id, amt]) => ({payment_id, invoice_id,
amount})).filter(r => r.amount > 0)`. -/
def allocRows (newPaymentId : Nat) (alloc : List (Nat × ℚ)) : List Allocation :=
  (alloc.map (fun e => (⟨newPaymentId, e.1, e.2, false⟩ : Allocation))).filter
    (fun r => decide (0 < r.amount))

/-- `onSubmit` of the payment form (the ApplyPayment entry point, payment page
source lines 343 to 389).  Checks `allocatedTotal > amount + 1e-6` and aborts
with an alert; otherwise inserts the payment through `api_insert_payment`,
builds the allocation rows (`allocRows`), and, when any remain, inserts them
with a single plain `from('allocations').insert(rows)`.  That insert is
modelled as failing exactly on a foreign-key violation, i.e. when some target
invoice id has no row in `invoices` (the schema constraint
`allocations_invoice_id_fkey`; the check `amount > 0` already holds for every
built row).  When the insert fails the source only displays the error: the
payment row stays persisted and nothing is rolled back.  No invoice row and
no audit row is touched on any path. -/
def applyPayment (db : DB) (newPaymentId : Nat) (method reference : String)
    (amount : ℚ) (alloc : List (Nat × ℚ)) : DB × ApplyResult :=
  let allocatedTotal := (alloc.map Prod.snd).sum
  if allocatedTotal > amount + paymentEpsilon then (db, .overalloc)
  else
    let db1 := api_insert_payment db newPaymentId method reference amount
    let rows := allocRows newPaymentId alloc
    if rows.isEmpty then (db1, .ok)
    else if rows.all (fun r => db.invoices.any (fun i => i.id == r.invoice_id)) then
      ({ db1 with allocations := db1.allocations ++ rows }, .ok)
    else (db1, .insertErr)

/-- `setAllocFor` of the payment form (source lines 307 to 314): parses the
text input (`Number.isFinite` failure, the `none` case here, yields 0), then
clamps below at 0 and above at the stored balance of the invoice. -/
def setAllocFor (balance : ℚ) (raw : Option ℚ) : ℚ :=
  let num := raw.getD 0
  let num := if num < 0 then 0 else num
  if num > balance then balance else num

/-- `daysBetween` (app/invoices/new/page.tsx lines 55 to 63).  Dates are
embedded as epoch-day integers; on whole-day inputs the millisecond difference
is an exact number of days, so `Math.ceil` is the identity and the function is
the clamped difference `Math.max(0, end - start)`. -/
def daysBetween (startDay endDay : ℤ) : ℤ := max 0 (endDay - startDay)

/-- Validation outcome of the new-invoice form resolver. -/
inductive FormCheck
  | ok
  | fieldError (field msg : String)
deriving DecidableEq, Repr

/-- The zod `schema` of the new-invoice form (app/invoices/new/page.tsx lines
24 to 42), restricted to the stay fields: `check_in` and `check_out` are only
required to be present (already-parsed integers here), and `rate_night` must
be a finite number that is at least 0.  The schema contains no comparison
between `check_in` and `check_out`. -/
def invoiceSchemaCheck (check_in check_out : ℤ) (rate_night : ℚ) : FormCheck :=
  if rate_night < 0 then .fieldError "rate_night" "Rate must be a number >= 0" else .ok

/-- `onSubmit` of the new-invoice form (app/invoices/new/page.tsx lines 204 to
246) composed with its resolver: on schema success it inserts one invoice row
with `subtotal = max(0, nights * rate)` (the preview total, guarded again with
`Math.max(0, ...)`), `tax = 0`, `balance = subtotal`, `status = open`.  The
generated columns `nights` and `total` are computed by the database. -/
def createInvoice (db : DB) (newId : Nat) (check_in check_out : ℤ) (rate_night : ℚ) :
    DB × FormCheck :=
  match invoiceSchemaCheck check_in check_out rate_night with
  | .fieldError f m => (db, .fieldError f m)
  | .ok =>
    let nights := daysBetween check_in check_out
    let previewTotal : ℚ := max 0 ((nights : ℚ) * rate_night)
    let subtotal := max 0 previewTotal
    ({ db with invoices := db.invoices ++ [⟨newId, subtotal, 0, subtotal, "open", false⟩] },
      .ok)

/-- One row of the invoices listing after aggregation
(`fetchRows` in app/invoices/[id]/problems/page.tsx): the invoice fields the
final mapping touches plus the aggregated `payments`. -/
structure DisplayRow where
  id : Nat
  total : ℚ
  balance : ℚ
  status : String
  payments : ℚ
deriving DecidableEq, Repr

/-- ASCII lowering of one character (the effect of
`String.prototype.toLowerCase` on the ASCII status strings of the source). -/
def lowerChar (c : Char) : Char :=
  if 'A' ≤ c ∧ c ≤ 'Z' then Char.ofNat (c.toNat + 32) else c

/-- ASCII model of `String.prototype.toLowerCase`. -/
def lowerStr (s : String) : String := String.mk (s.data.map lowerChar)

/-- Merge step of `fetchRows` (lines 605 to 621): each invoice row gets
`payments := pay.get(r.id) ?? 0` where the `pay` map accumulates, per invoice
id, the amounts of the active allocations of the listed invoices; the
per-key accumulation of the source loop equals this per-invoice sum. -/
def mergeRows (invoices : List Invoice) (allocations : List Allocation) : List DisplayRow :=
  invoices.map (fun r =>
    ⟨r.id, r.total, r.balance, r.status,
      ((allocations.filter (fun a => a.invoice_id == r.id && !a.deleted)).map
        Allocation.amount).sum⟩)

/-- Final mapping of `fetchRows` (lines 639 to 644): a row whose lowered
status is `void` is displayed with `payments: 0, balance: 0`. -/
def voidMask (rows : List DisplayRow) : List DisplayRow :=
  rows.map (fun r =>
    if lowerStr r.status = "void" then { r with payments := 0, balance := 0 } else r)

/-- The `fetchRows` pipeline from the merge step to the rows handed to the
table: merge, then the text-search filter (lines 623 to 637, a plain
`List.filter` whose predicate depends on UI lookup tables and is therefore a
parameter here), then the void mask. -/
def fetchRowsDisplay (invoices : List Invoice) (allocations : List Allocation)
    (searchKeep : DisplayRow → Bool) : List DisplayRow :=
  voidMask ((mergeRows invoices allocations).filter searchKeep)

/-- One detail row of the aging report as returned by the
`aging_report_detail` RPC and consumed by app/companies/new/page.tsx; the
claims about the report quantify over arbitrary input rows, so the RPC itself
needs no model. -/
structure Detail where
  id : Nat
  balance : ℚ
  bucket : String
deriving DecidableEq, Repr

/-- One bucket group of the aging summary (`BucketGroup` of the source). -/
structure BucketGroup where
  label : String
  total : ℚ
  count : Nat
  rows : List Detail
deriving DecidableEq, Repr

/-- `BUCKET_ORDER` (app/companies/new/page.tsx line 283). -/
def BUCKET_ORDER : List String := ["Current (0-30)", "31-60", "61-90", "91+"]

/-- The sort key of the bucket comparator (lines 393 to 397):
`indexOf` with the `-1` result replaced by 999. -/
def bucketIdx (label : String) : Nat :=
  match BUCKET_ORDER.findIdx? (fun s => s == label) with
  | some i => i
  | none => 999

/-- Boolean order used to model the stable `Array.prototype.sort` of the
bucket groups: ascending comparator value `(ia == -1 ? 999 : ia) - (ib == -1 ?
999 : ib)`. -/
def bucketLe (a b : BucketGroup) : Bool := bucketIdx a.label ≤ bucketIdx b.label

/-- Loop body of the `groups` useMemo (lines 383 to 392): skip rows tagged
Paid/Zero; ensure a group keyed by the bucket exists in the insertion-ordered
map; push the row and add its balance and count. -/
def groupStep (acc : List BucketGroup) (row : Detail) : List BucketGroup :=
  if row.bucket = "Paid/Zero" then acc
  else if acc.any (fun g => g.label == row.bucket) then
    acc.map (fun g =>
      if g.label == row.bucket then
        { g with rows := g.rows ++ [row], total := g.total + row.balance, count := g.count + 1 }
      else g)
  else acc ++ [⟨row.bucket, row.balance, 1, [row]⟩]

/-- `groups` (lines 383 to 398): accumulate the bucket groups in insertion
order, then sort them by `BUCKET_ORDER` position (unknown labels sink to 999;
JavaScript sort is stable, modelled by `mergeSort`). -/
def groupsFn (rows : List Detail) : List BucketGroup :=
  (rows.foldl groupStep []).mergeSort bucketLe

/-- One row of the per-company breakdown (`CompanyRow` of the source). -/
structure CompanyRow where
  company : String
  count : Nat
  b0_30 : ℚ
  b31_60 : ℚ
  b61_90 : ℚ
  b91p : ℚ
  total : ℚ
deriving DecidableEq, Repr

/-- The company label of a detail row:
`invoiceMeta[r.id]?.company_name || '(no company)'` — a missing meta entry, a
null name and an empty name all fall back to the placeholder. -/
def companyLabel (nameOf : Option String) : String :=
  match nameOf with
  | some n => if n = "" then "(no company)" else n
  | none => "(no company)"

/-- Loop body of `byCompanyAllBuckets` (lines 418 to 435): skip Paid/Zero
rows, ensure a row keyed by the company label exists, then add the count, the
balance into the matching bucket column, and the balance into the grand
total. -/
def companyBucketAdd (bucket : String) (amt : ℚ) (a : CompanyRow) : CompanyRow :=
  if bucket = "Current (0-30)" then { a with b0_30 := a.b0_30 + amt }
  else if bucket = "31-60" then { a with b31_60 := a.b31_60 + amt }
  else if bucket = "61-90" then { a with b61_90 := a.b61_90 + amt }
  else if bucket = "91+" then { a with b91p := a.b91p + amt }
  else a

/-- The two mutations applied to the matching company row: `a.count += 1`, the
bucket-column addition, and `a.total += amt`. -/
def companyRowAdd (bucket : String) (amt : ℚ) (a : CompanyRow) : CompanyRow :=
  let a1 := companyBucketAdd bucket amt { a with count := a.count + 1 }
  { a1 with total := a1.total + amt }

/-- Accumulation step of `byCompanyAllBuckets` continued: skip Paid/Zero rows,
ensure a row keyed by the company label exists, then update it. -/
def companyStep (meta : Nat → Option String) (acc : List CompanyRow) (r : Detail) :
    List CompanyRow :=
  if r.bucket = "Paid/Zero" then acc
  else
    let name := companyLabel (meta r.id)
    let acc1 := if acc.any (fun a => a.company == name) then acc
                else acc ++ [⟨name, 0, 0, 0, 0, 0, 0⟩]
    acc1.map (fun a => if a.company == name then companyRowAdd r.bucket r.balance a else a)

/-- Boolean order modelling the company comparator (line 437):
`(x, y) => y.total - x.total || x.company.localeCompare(y.company)` — grand
total descending, ties broken by name ascending (`localeCompare` modelled as
the codepoint order on strings). -/
def companyLe (x y : CompanyRow) : Bool :=
  if x.total = y.total then decide (x.company ≤ y.company) else decide (y.total < x.total)

/-- `byCompanyAllBuckets` (lines 418 to 439). -/
def byCompanyAllBuckets (meta : Nat → Option String) (rows : List Detail) : List CompanyRow :=
  (rows.foldl (companyStep meta) []).mergeSort companyLe

/-! ### Concrete ledger states used by counterexamples and witnesses -/

/-- An open invoice of total 100, no payments applied yet. -/
def dbOpen : DB := ⟨[⟨1, 100, 0, 100, "open", false⟩], [], [], []⟩

/-- An invoice of total 100 with 40 applied from payment 1. -/
def dbPartial : DB :=
  ⟨[⟨1, 100, 0, 60, "partial", false⟩], [⟨1, 40, "check", ""⟩], [⟨1, 1, 40, false⟩], []⟩

/-- Scenario E of the spec: total 500, 400 already paid from payment 1. -/
def dbScenarioE : DB :=
  ⟨[⟨1, 500, 0, 100, "partial", false⟩], [⟨1, 400, "check", ""⟩], [⟨1, 1, 400, false⟩], []⟩

/-- A payment of 50 fully allocated to invoice 1 (a live allocation). -/
def dbLiveAlloc : DB :=
  ⟨[⟨1, 100, 0, 50, "partial", false⟩], [⟨1, 50, "check", ""⟩], [⟨1, 1, 50, false⟩], []⟩

/-- The empty ledger. -/
def dbEmpty : DB := ⟨[], [], [], []⟩

/-- Scenario D state: invoice 1 carries allocations of 150 (payment 1) and
100 (payment 2), 250 in total. -/
def dbScenarioD : DB :=
  ⟨[⟨1, 400, 0, 150, "partial", false⟩],
   [⟨1, 150, "check", ""⟩, ⟨2, 100, "ach", ""⟩],
   [⟨1, 1, 150, false⟩, ⟨2, 1, 100, false⟩], []⟩

/-- A small aging-report input: two live rows in different buckets and one
Paid/Zero row. -/
def agingRowsW : List Detail :=
  [⟨1, 120, "31-60"⟩, ⟨2, 80, "Current (0-30)"⟩, ⟨3, 50, "Paid/Zero"⟩]

/-- A company lookup for the witness rows. -/
def agingMetaW : Nat → Option String := fun i => if i = 1 then some "Acme" else none

/-- Sum of a group field over the groups carrying one label (there is at most
one such group in the accumulations below, so this reads off that group). -/
def groupMeasure {M : Type} [AddCommMonoid M] (φ : BucketGroup → M) (gs : List BucketGroup)
    (l : String) : M :=
  ((gs.filter (fun g => g.label == l)).map φ).sum

/-! ### Helper lemmas about the reconciliation operations -/

theorem updateTotal_eq_of_success (db : DB) (invId : Nat) (newTotal : ℚ)
    (h0 : 0 ≤ newTotal)
    (hany : db.invoices.any (fun i => i.id == invId && !i.deleted) = true) :
    updateTotal db invId newTotal =
      ({ db with
          invoices := db.invoices.map (fun i =>
            if i.id == invId && !i.deleted then
              { i with subtotal := newTotal, tax := 0,
                       balance := max 0 (newTotal - activeAllocSumInvoice db invId),
                       status := deriveStatusUpdateTotal newTotal (activeAllocSumInvoice db invId) }
            else i),
          audit := db.audit ++ [⟨invId, "update_total", none,
            some (((db.invoices.find? (fun i => i.id == invId && !i.deleted)).map
              Invoice.total).getD 0),
            some newTotal⟩] }, true) := by
  simp only [updateTotal, log_invoice_event, if_neg (not_lt.mpr h0), hany, if_true]

theorem updateTotal_fail_of_no_row (db : DB) (invId : Nat) (newTotal : ℚ)
    (hany : db.invoices.any (fun i => i.id == invId && !i.deleted) = false) :
    updateTotal db invId newTotal = (db, false) := by
  simp only [updateTotal, hany]
  split <;> simp

theorem voidInvoice_eq_of_success (db : DB) (invId : Nat) (reason : String)
    (hany : db.invoices.any (fun i => i.id == invId && !i.deleted) = true) :
    voidInvoice db invId reason =
      ({ invoices := db.invoices.map (fun i =>
            if i.id == invId && !i.deleted then
              { i with status := "void", subtotal := 0, tax := 0, balance := 0 }
            else i),
          payments := db.payments,
          allocations := db.allocations.filter (fun a => !(a.invoice_id == invId)),
          audit := db.audit ++ [⟨invId, "void_invoice",
            (if reason = "" then none else some reason), none, none⟩] }, true) := by
  simp only [voidInvoice, log_invoice_event, hany, if_true]

/-! ### C3 — payment deletion -/

/-- C3 counterexample.  `deletePayment` on a payment that still carries a live
allocation does not fail with `HasAllocations` and does not leave the state
unchanged: it silently deletes the allocation together with the payment. -/
theorem deletePayment_cascades :
    dbLiveAlloc.payments = [⟨1, 50, "check", ""⟩]
    ∧ dbLiveAlloc.allocations = [⟨1, 1, 50, false⟩]
    ∧ deletePayment dbLiveAlloc 1
        = ⟨[⟨1, 100, 0, 50, "partial", false⟩], [], [], []⟩ := by
  refine ⟨rfl, rfl, ?_⟩
  simp [deletePayment, dbLiveAlloc]

/-- C3 amended.  `deletePayment` unconditionally cascades: afterwards no
allocation of the payment and no payment row with its id remain, every other
allocation and payment survives, and invoices and audit are untouched. -/
theorem deletePayment_cascade_spec (db : DB) (payId : Nat) :
    (∀ a ∈ (deletePayment db payId).allocations, a.payment_id ≠ payId)
    ∧ (∀ p ∈ (deletePayment db payId).payments, p.id ≠ payId)
    ∧ (∀ a ∈ db.allocations, a.payment_id ≠ payId → a ∈ (deletePayment db payId).allocations)
    ∧ (∀ p ∈ db.payments, p.id ≠ payId → p ∈ (deletePayment db payId).payments)
    ∧ (deletePayment db payId).invoices = db.invoices
    ∧ (deletePayment db payId).audit = db.audit := by
  refine ⟨?_, ?_, ?_, ?_, rfl, rfl⟩ <;> intro x hx <;> simp_all [deletePayment]

/-- C3 amended, witness at a concrete state. -/
theorem deletePayment_cascade_spec_witness :
    (∀ a ∈ (deletePayment dbLiveAlloc 1).allocations, a.payment_id ≠ 1)
    ∧ (∀ p ∈ (deletePayment dbLiveAlloc 1).payments, p.id ≠ 1)
    ∧ (∀ a ∈ dbLiveAlloc.allocations, a.payment_id ≠ 1 →
        a ∈ (deletePayment dbLiveAlloc 1).allocations)
    ∧ (∀ p ∈ dbLiveAlloc.payments, p.id ≠ 1 → p ∈ (deletePayment dbLiveAlloc 1).payments)
    ∧ (deletePayment dbLiveAlloc 1).invoices = dbLiveAlloc.invoices
    ∧ (deletePayment dbLiveAlloc 1).audit = dbLiveAlloc.audit :=
  deletePayment_cascade_spec dbLiveAlloc 1

theorem deriveStatus_eq_void_iff (t p : ℚ) : deriveStatusUpdateTotal t p = "void" ↔ t = 0 := by
  unfold deriveStatusUpdateTotal
  split_ifs with h1 h2 h3
  · simp [h1]
  · simp only [h1, iff_false]
    decide
  · simp only [h1, iff_false]
    decide
  · simp only [h1, iff_false]
    decide

/-! ### C4 — where the void status can come from -/

/-- C4 counterexample.  `updateTotal` with a new total of 0 derives the status
`void` on its own, without any `voidInvoice` call. -/
theorem updateTotal_zero_sets_void :
    (updateTotal dbOpen 1 0).2 = true
    ∧ (updateTotal dbOpen 1 0).1.invoices = [⟨1, 0, 0, 0, "void", false⟩] := by
  rw [updateTotal_eq_of_success dbOpen 1 0 le_rfl (by simp [dbOpen])]
  simp [dbOpen, activeAllocSumInvoice, deriveStatusUpdateTotal]

/-- C4 amended.  A successful `updateTotal` gives the touched rows the status
`void` exactly when the new total is 0; `applyPayment` and `deletePayment`
never change any invoice row; `createInvoice` only adds rows with status
`open`. -/
theorem void_status_sources (db : DB) (invId newId payId : Nat) (newTotal : ℚ)
    (method reference : String) (amount : ℚ) (alloc : List (Nat × ℚ))
    (ci co : ℤ) (rate : ℚ) :
    ((updateTotal db invId newTotal).2 = true →
      ∀ i ∈ (updateTotal db invId newTotal).1.invoices, i.id = invId → i.deleted = false →
        (i.status = "void" ↔ newTotal = 0))
    ∧ (applyPayment db newId method reference amount alloc).1.invoices = db.invoices
    ∧ (deletePayment db payId).invoices = db.invoices
    ∧ (∀ i ∈ (createInvoice db newId ci co rate).1.invoices,
        i ∈ db.invoices ∨ i.status = "open") := by
  refine ⟨?_, ?_, rfl, ?_⟩
  · intro hs i hi hid hdel
    by_cases h0 : (0:ℚ) ≤ newTotal
    case neg =>
      rw [show updateTotal db invId newTotal = (db, false) by
        simp only [updateTotal, if_pos (not_le.mp h0)]] at hs
      cases hs
    by_cases hany : (db.invoices.any fun i => i.id == invId && !i.deleted) = true
    case neg =>
      rw [updateTotal_fail_of_no_row db invId newTotal (by simpa using hany)] at hs
      cases hs
    rw [updateTotal_eq_of_success db invId newTotal h0 hany] at hi
    rcases List.mem_map.mp hi with ⟨i0, hi0, rfl⟩
    by_cases hc : (i0.id == invId && !i0.deleted) = true
    · rw [if_pos hc]
      exact deriveStatus_eq_void_iff newTotal _
    · rw [if_neg hc] at hid hdel
      exact absurd (by simp [hid, hdel]) hc
  · simp only [applyPayment, api_insert_payment]
    split
    · rfl
    · split
      · rfl
      · split <;> rfl
  · intro i hi
    simp only [createInvoice] at hi
    split at hi
    · exact Or.inl hi
    · rcases List.mem_append.mp hi with h | h
      · exact Or.inl h
      · simp only [List.mem_singleton] at h
        subst h
        exact Or.inr rfl

/-- C4 amended, witness at a concrete state. -/
theorem void_status_sources_witness :
    ((updateTotal dbPartial 1 0).2 = true →
      ∀ i ∈ (updateTotal dbPartial 1 0).1.invoices, i.id = 1 → i.deleted = false →
        (i.status = "void" ↔ (0:ℚ) = 0))
    ∧ (applyPayment dbPartial 9 "check" "" 50 []).1.invoices = dbPartial.invoices
    ∧ (deletePayment dbPartial 1).invoices = dbPartial.invoices
    ∧ (∀ i ∈ (createInvoice dbPartial 9 0 1 5).1.invoices,
        i ∈ dbPartial.invoices ∨ i.status = "open") :=
  void_status_sources dbPartial 1 9 1 0 "check" "" 50 [] 0 1 5

/-! ### C6 — UpdateTotal -/

/-- C6 counterexample.  With 40 already paid, `updateTotal` to a new total of
0 produces the status `void`; the status derivation of the claim (open when
paid quantity is at most 0, partial when strictly between, paid when at least
the new total) never produces `void`, so the claim fails at new_total = 0. -/
theorem updateTotal_zero_not_open_partial_paid :
    (updateTotal dbPartial 1 0).2 = true
    ∧ (updateTotal dbPartial 1 0).1.invoices = [⟨1, 0, 0, 0, "void", false⟩]
    ∧ ("void" ≠ "open" ∧ "void" ≠ "partial" ∧ "void" ≠ "paid") := by
  refine ⟨?_, ?_, by decide, by decide, by decide⟩ <;>
    rw [updateTotal_eq_of_success dbPartial 1 0 le_rfl (by simp [dbPartial])] <;>
    norm_num [dbPartial, activeAllocSumInvoice, deriveStatusUpdateTotal]

/-- C6 amended.  For a non-tombstoned invoice and a new total that is at
least 0, `updateTotal` succeeds, leaves allocations and payments unchanged,
sets on every touched row `subtotal = new_total`, `tax = 0` (so the generated
total is `new_total`) and `balance = max(0, new_total - paid_to_date)`,
derives the status as `void` when the new total is 0 and otherwise as open,
partial or paid from `paid_to_date`, and appends exactly one `update_total`
audit event carrying the old and new totals. -/
theorem updateTotal_spec (db : DB) (invId : Nat) (newTotal : ℚ) (inv : Invoice)
    (hfind : db.invoices.find? (fun i => i.id == invId && !i.deleted) = some inv)
    (h0 : 0 ≤ newTotal) :
    (updateTotal db invId newTotal).2 = true
    ∧ (updateTotal db invId newTotal).1.allocations = db.allocations
    ∧ (updateTotal db invId newTotal).1.payments = db.payments
    ∧ (∀ i ∈ (updateTotal db invId newTotal).1.invoices, i.id = invId → i.deleted = false →
        i.subtotal = newTotal ∧ i.tax = 0 ∧ i.total = newTotal
        ∧ i.balance = max 0 (newTotal - activeAllocSumInvoice db invId)
        ∧ i.status = (if newTotal = 0 then "void"
            else if activeAllocSumInvoice db invId ≤ 0 then "open"
            else if activeAllocSumInvoice db invId < newTotal then "partial" else "paid"))
    ∧ (updateTotal db invId newTotal).1.audit
        = db.audit ++ [⟨invId, "update_total", none, some inv.total, some newTotal⟩] := by
  have hp : (inv.id == invId && !inv.deleted) = true := by
    have h := List.find?_some hfind
    simpa using h
  have hany : (db.invoices.any fun i => i.id == invId && !i.deleted) = true :=
    List.any_eq_true.mpr ⟨inv, List.mem_of_find?_eq_some hfind, by simpa using hp⟩
  rw [updateTotal_eq_of_success db invId newTotal h0 hany]
  refine ⟨rfl, rfl, rfl, ?_, by rw [hfind]; rfl⟩
  intro i hi hid hdel
  rcases List.mem_map.mp hi with ⟨i0, hi0, rfl⟩
  by_cases hc : (i0.id == invId && !i0.deleted) = true
  · rw [if_pos hc]
    exact ⟨rfl, rfl, by simp [Invoice.total], rfl, rfl⟩
  · rw [if_neg hc] at hid hdel
    exact absurd (by simp [hid, hdel]) hc

/-- C6 amended, witness instantiating Scenario E: lowering the total from 500
to 300 after 400 was paid yields balance 0 and status paid, plus the audit
event with the old and new totals. -/
theorem updateTotal_spec_witness :
    dbScenarioE.invoices.find? (fun i => i.id == 1 && !i.deleted)
      = some ⟨1, 500, 0, 100, "partial", false⟩
    ∧ (0:ℚ) ≤ 300
    ∧ (updateTotal dbScenarioE 1 300).2 = true
    ∧ (updateTotal dbScenarioE 1 300).1.invoices = [⟨1, 300, 0, 0, "paid", false⟩]
    ∧ (updateTotal dbScenarioE 1 300).1.audit
        = [⟨1, "update_total", none, some 500, some 300⟩] := by
  have hf : dbScenarioE.invoices.find? (fun i => i.id == 1 && !i.deleted)
      = some ⟨1, 500, 0, 100, "partial", false⟩ := by
    simp [dbScenarioE, List.find?]
  have h := updateTotal_spec dbScenarioE 1 300 ⟨1, 500, 0, 100, "partial", false⟩ hf (by norm_num)
  refine ⟨hf, by norm_num, h.1, ?_, ?_⟩
  · rw [updateTotal_eq_of_success dbScenarioE 1 300 (by norm_num) (by simp [dbScenarioE])]
    norm_num [dbScenarioE, activeAllocSumInvoice, deriveStatusUpdateTotal]
  · refine h.2.2.2.2.trans ?_
    norm_num [dbScenarioE, Invoice.total]

/-! ### C9 — new-invoice validation -/

/-- C9 counterexample.  An invoice whose check-out (day 5) is earlier than its
check-in (day 10) passes the form schema and is inserted: nights clamp to 0,
so the row is created with subtotal 0 — there is no `ValidationError` and a
record is persisted. -/
theorem invoice_checkout_before_checkin_accepted :
    createInvoice dbEmpty 1 10 5 100
      = (⟨[⟨1, 0, 0, 0, "open", false⟩], [], [], []⟩, FormCheck.ok) := by
  norm_num [createInvoice, invoiceSchemaCheck, daysBetween, dbEmpty]

/-- C9 amended.  A negative `rate_night` fails schema validation with an
error naming the `rate_night` field and no record is created; a check-out
earlier than check-in, however, is accepted: the night count clamps to 0 and
an invoice row with subtotal 0, tax 0, balance 0 and status open is
created. -/
theorem invoice_validation_spec (db : DB) (newId : Nat) (ci co : ℤ) (rate : ℚ) :
    (rate < 0 →
      createInvoice db newId ci co rate
        = (db, .fieldError "rate_night" "Rate must be a number >= 0"))
    ∧ (0 ≤ rate → co < ci →
      createInvoice db newId ci co rate
        = ({ db with invoices := db.invoices ++ [⟨newId, 0, 0, 0, "open", false⟩] }, .ok)) := by
  constructor
  · intro hneg
    simp [createInvoice, invoiceSchemaCheck, hneg]
  · intro hnn hlt
    have hd : daysBetween ci co = 0 := by
      simp only [daysBetween]
      omega
    simp [createInvoice, invoiceSchemaCheck, not_lt.mpr hnn, hd]

/-- C9 amended, witness at concrete inputs: rate −1 is rejected naming
`rate_night`; stay 10 → 5 with rate 100 is accepted with an all-zero row. -/
theorem invoice_validation_spec_witness :
    (createInvoice dbEmpty 2 0 3 (-1)
      = (dbEmpty, .fieldError "rate_night" "Rate must be a number >= 0"))
    ∧ (createInvoice dbEmpty 2 10 5 100
      = ({ dbEmpty with invoices := dbEmpty.invoices ++ [⟨2, 0, 0, 0, "open", false⟩] }, .ok)) :=
  ⟨(invoice_validation_spec dbEmpty 2 0 3 (-1)).1 (by norm_num),
   (invoice_validation_spec dbEmpty 2 10 5 100).2 (by norm_num) (by norm_num)⟩

/-! ### C10 — void rows in the invoices listing -/

theorem lowerStr_void : lowerStr "void" = "void" := by decide

/-- C10.  Every row of the invoices listing whose status is `void` is
displayed with payments 0 and balance 0, whatever balance is stored on the
row and whatever allocation rows still reference the invoice. -/
theorem void_rows_display_zero (invoices : List Invoice) (allocations : List Allocation)
    (searchKeep : DisplayRow → Bool) :
    ∀ r ∈ fetchRowsDisplay invoices allocations searchKeep,
      r.status = "void" → r.payments = 0 ∧ r.balance = 0 := by
  intro r hr hst
  rcases List.mem_map.mp hr with ⟨r0, hr0, rfl⟩
  by_cases h : lowerStr r0.status = "void"
  · rw [if_pos h]
    exact ⟨rfl, rfl⟩
  · rw [if_neg h] at hst ⊢
    exact absurd (hst ▸ lowerStr_void) h

/-- C10 witness: a voided invoice stored with balance 33 and a live
allocation of 20 is nevertheless displayed with payments 0 and balance 0. -/
theorem void_rows_display_zero_witness :
    (⟨7, 40, 0, "void", 0⟩ : DisplayRow)
        ∈ fetchRowsDisplay [⟨7, 40, 0, 33, "void", false⟩] [⟨1, 7, 20, false⟩] (fun _ => true)
    ∧ ((⟨7, 40, 0, "void", 0⟩ : DisplayRow).payments = 0
        ∧ (⟨7, 40, 0, "void", 0⟩ : DisplayRow).balance = 0) := by
  have hmem : (⟨7, 40, 0, "void", 0⟩ : DisplayRow)
      ∈ fetchRowsDisplay [⟨7, 40, 0, 33, "void", false⟩] [⟨1, 7, 20, false⟩] (fun _ => true) := by
    norm_num [fetchRowsDisplay, voidMask, mergeRows, Invoice.total, lowerStr_void]
  exact ⟨hmem,
    void_rows_display_zero [⟨7, 40, 0, 33, "void", false⟩] [⟨1, 7, 20, false⟩] (fun _ => true)
      ⟨7, 40, 0, "void", 0⟩ hmem rfl⟩

/-! ### More helper lemmas -/

theorem updateTotal_success_imp (db : DB) (invId : Nat) (newTotal : ℚ)
    (h : (updateTotal db invId newTotal).2 = true) :
    0 ≤ newTotal ∧ (db.invoices.any fun i => i.id == invId && !i.deleted) = true := by
  by_cases h0 : newTotal < 0
  · rw [show updateTotal db invId newTotal = (db, false) from by simp [updateTotal, h0]] at h
    cases h
  by_cases hany : (db.invoices.any fun i => i.id == invId && !i.deleted) = true
  · exact ⟨not_lt.mp h0, hany⟩
  · rw [updateTotal_fail_of_no_row db invId newTotal (by simpa using hany)] at h
    cases h

theorem voidInvoice_success_imp (db : DB) (invId : Nat) (reason : String)
    (h : (voidInvoice db invId reason).2 = true) :
    (db.invoices.any fun i => i.id == invId && !i.deleted) = true := by
  by_cases hany : (db.invoices.any fun i => i.id == invId && !i.deleted) = true
  · exact hany
  · exfalso
    simp only [voidInvoice] at h
    rw [if_neg (by simpa using hany)] at h
    cases h

theorem filter_invoice_of_filter_not (l : List Allocation) (invId : Nat) :
    ((l.filter (fun a => !(a.invoice_id == invId))).filter
      (fun a => a.invoice_id == invId && !a.deleted)) = [] := by
  apply List.filter_eq_nil_iff.mpr
  intro a ha
  have hne := (List.mem_filter.mp ha).2
  simp only [Bool.not_eq_true', beq_eq_false_iff_ne] at hne
  simp [hne]

theorem allocRows_sum (newId : Nat) (alloc : List (Nat × ℚ))
    (hnn : ∀ e ∈ alloc, 0 ≤ e.2) :
    ((allocRows newId alloc).map Allocation.amount).sum = (alloc.map Prod.snd).sum := by
  induction alloc with
  | nil => rfl
  | cons e t ih =>
    have h0 : 0 ≤ e.2 := hnn e (List.mem_cons_self e t)
    have ht : ∀ x ∈ t, 0 ≤ x.2 := fun x hx => hnn x (List.mem_cons_of_mem e hx)
    have ih2 := ih ht
    by_cases hp : (0:ℚ) < e.2
    · have hstep : allocRows newId (e :: t)
          = ⟨newId, e.1, e.2, false⟩ :: allocRows newId t := by
        simp [allocRows, List.filter_cons, hp]
      rw [hstep]
      simp [ih2]
    · have he : e.2 = 0 := le_antisymm (not_lt.mp hp) h0
      have hstep : allocRows newId (e :: t) = allocRows newId t := by
        simp [allocRows, List.filter_cons, hp]
      rw [hstep]
      simp [ih2, he]

theorem allocRows_fields (newId : Nat) (alloc : List (Nat × ℚ)) :
    ∀ r ∈ allocRows newId alloc, r.payment_id = newId ∧ r.deleted = false := by
  intro r hr
  rcases List.mem_filter.mp hr with ⟨hm, _⟩
  rcases List.mem_map.mp hm with ⟨e, _, rfl⟩
  exact ⟨rfl, rfl⟩

/-! ### C1 — the stored-balance invariant -/

/-- C1 counterexample.  Applying a payment of 50 to an open invoice of total
100 succeeds but does not touch the invoice row, so afterwards the stored
balance (100) is not `max(0, total - active allocations) = 50`. -/
theorem applyPayment_breaks_balance_invariant :
    (applyPayment dbOpen 1 "check" "" 50 [(1, 50)]).2 = ApplyResult.ok
    ∧ (applyPayment dbOpen 1 "check" "" 50 [(1, 50)]).1.invoices
        = [⟨1, 100, 0, 100, "open", false⟩]
    ∧ activeAllocSumInvoice (applyPayment dbOpen 1 "check" "" 50 [(1, 50)]).1 1 = 50
    ∧ ¬ balanceInvariant (applyPayment dbOpen 1 "check" "" 50 [(1, 50)]).1
        ⟨1, 100, 0, 100, "open", false⟩ := by
  have hev : applyPayment dbOpen 1 "check" "" 50 [(1, 50)]
      = (⟨[⟨1, 100, 0, 100, "open", false⟩], [⟨1, 50, "check", ""⟩],
          [⟨1, 1, 50, false⟩], []⟩, ApplyResult.ok) := by
    norm_num [applyPayment, api_insert_payment, allocRows, dbOpen, paymentEpsilon, List.filter]
  rw [hev]
  norm_num [balanceInvariant, activeAllocSumInvoice, Invoice.total, List.filter]

/-- C1 amended.  The balance invariant is established for the rows written by
invoice creation, by a successful `updateTotal` and by a successful
`voidInvoice`; the ApplyPayment allocation insert and `deletePayment`, by
contrast, never write the invoice row, so the stored balance can go stale
after them (see the counterexample). -/
theorem balance_invariant_after_create_update_void
    (db : DB) (newId invId : Nat) (ci co : ℤ) (rate newTotal : ℚ) (reason : String) :
    ((∀ i ∈ db.invoices, i.id ≠ newId) → (∀ a ∈ db.allocations, a.invoice_id ≠ newId) →
      ∀ i ∈ (createInvoice db newId ci co rate).1.invoices, i.id = newId →
        balanceInvariant (createInvoice db newId ci co rate).1 i)
    ∧ ((updateTotal db invId newTotal).2 = true →
      ∀ i ∈ (updateTotal db invId newTotal).1.invoices, i.id = invId → i.deleted = false →
        balanceInvariant (updateTotal db invId newTotal).1 i)
    ∧ ((voidInvoice db invId reason).2 = true →
      ∀ i ∈ (voidInvoice db invId reason).1.invoices, i.id = invId → i.deleted = false →
        balanceInvariant (voidInvoice db invId reason).1 i) := by
  refine ⟨?_, ?_, ?_⟩
  · intro hFreshInv hFreshAlloc i hi hid
    simp only [createInvoice] at hi ⊢
    split at hi
    · exact absurd hid (hFreshInv i hi)
    · rcases List.mem_append.mp hi with h | h
      · exact absurd hid (hFreshInv i h)
      · simp only [List.mem_singleton] at h
        subst h
        have hsum0 : ((db.allocations.filter
            (fun a => a.invoice_id == newId && !a.deleted)).map Allocation.amount).sum = 0 := by
          rw [List.filter_eq_nil_iff.mpr ?_]
          · rfl
          · intro a ha
            simp [hFreshAlloc a ha]
        simp only [balanceInvariant, Invoice.total, activeAllocSumInvoice]
        rw [hsum0, sub_zero, add_zero]
        exact (max_eq_right (le_max_left 0 _)).symm
  · intro hs i hi hid hdel
    obtain ⟨h0, hany⟩ := updateTotal_success_imp db invId newTotal hs
    rw [updateTotal_eq_of_success db invId newTotal h0 hany] at hi ⊢
    rcases List.mem_map.mp hi with ⟨i0, hi0, rfl⟩
    by_cases hc : (i0.id == invId && !i0.deleted) = true
    · rw [if_pos hc]
      simp only [balanceInvariant, Invoice.total, activeAllocSumInvoice]
      have hid0 : i0.id = invId := by
        have := hc
        simp only [Bool.and_eq_true, beq_iff_eq] at this
        exact this.1
      rw [hid0]
      norm_num
    · rw [if_neg hc] at hid hdel
      exact absurd (by simp [hid, hdel]) hc
  · intro hs i hi hid hdel
    have hany := voidInvoice_success_imp db invId reason hs
    rw [voidInvoice_eq_of_success db invId reason hany] at hi ⊢
    rcases List.mem_map.mp hi with ⟨i0, hi0, rfl⟩
    by_cases hc : (i0.id == invId && !i0.deleted) = true
    · rw [if_pos hc]
      simp only [balanceInvariant, Invoice.total, activeAllocSumInvoice]
      have hid0 : i0.id = invId := by
        have := hc
        simp only [Bool.and_eq_true, beq_iff_eq] at this
        exact this.1
      rw [hid0, filter_invoice_of_filter_not]
      norm_num
    · rw [if_neg hc] at hid hdel
      exact absurd (by simp [hid, hdel]) hc

/-- C1 amended, witness: after `updateTotal` of the partially paid invoice to
80, the stored row `⟨1, 80, 0, 40, partial⟩` satisfies the invariant. -/
theorem balance_invariant_witness :
    balanceInvariant (updateTotal dbPartial 1 80).1 ⟨1, 80, 0, 40, "partial", false⟩ := by
  have hev : updateTotal dbPartial 1 80
      = (⟨[⟨1, 80, 0, 40, "partial", false⟩], dbPartial.payments, dbPartial.allocations,
          [⟨1, "update_total", none, some 100, some 80⟩]⟩, true) := by
    rw [updateTotal_eq_of_success dbPartial 1 80 (by norm_num) (by simp [dbPartial])]
    norm_num [dbPartial, activeAllocSumInvoice, deriveStatusUpdateTotal, Invoice.total,
      List.filter, List.find?]
  exact (balance_invariant_after_create_update_void dbPartial 9 1 0 2 50 80 "adj").2.1
    (by rw [hev]) ⟨1, 80, 0, 40, "partial", false⟩ (by rw [hev]; simp) rfl rfl

/-! ### C2 — ApplyPayment -/

/-- C2 counterexample.  An allocation targeting a nonexistent invoice makes
the allocation insert fail after the payment was already inserted: the call
ends in the error path with the payment row persisted, no allocation row, no
invoice recompute and no audit event — the operation is not atomic. -/
theorem applyPayment_not_atomic :
    (applyPayment dbOpen 1 "check" "" 50 [(2, 50)]).2 = ApplyResult.insertErr
    ∧ (applyPayment dbOpen 1 "check" "" 50 [(2, 50)]).1.payments = [⟨1, 50, "check", ""⟩]
    ∧ (applyPayment dbOpen 1 "check" "" 50 [(2, 50)]).1.allocations = []
    ∧ (applyPayment dbOpen 1 "check" "" 50 [(2, 50)]).1.audit = [] := by
  have hev : applyPayment dbOpen 1 "check" "" 50 [(2, 50)]
      = (⟨[⟨1, 100, 0, 100, "open", false⟩], [⟨1, 50, "check", ""⟩], [], []⟩,
          ApplyResult.insertErr) := by
    norm_num [applyPayment, api_insert_payment, allocRows, dbOpen, paymentEpsilon, List.filter]
  rw [hev]
  norm_num [dbOpen]

/-- C2 amended.  When the allocated total passes the epsilon check,
ApplyPayment always persists the payment row first; the allocation rows are
inserted in a separate statement that is not rolled back on failure, so an
insert error leaves the payment row persisted with no allocation; and on no
path does the call touch any invoice row or write any audit event (no balance
or status recompute and no payment_applied event happen in this code path). -/
theorem applyPayment_behavior (db : DB) (newId : Nat) (method reference : String)
    (amount : ℚ) (alloc : List (Nat × ℚ))
    (hsum : (alloc.map Prod.snd).sum ≤ amount + paymentEpsilon) :
    (applyPayment db newId method reference amount alloc).1.invoices = db.invoices
    ∧ (applyPayment db newId method reference amount alloc).1.audit = db.audit
    ∧ (applyPayment db newId method reference amount alloc).1.payments
        = db.payments ++ [⟨newId, amount, method, reference⟩]
    ∧ ((applyPayment db newId method reference amount alloc).2 = ApplyResult.ok →
        (applyPayment db newId method reference amount alloc).1.allocations
          = db.allocations ++ allocRows newId alloc)
    ∧ ((applyPayment db newId method reference amount alloc).2 = ApplyResult.insertErr →
        (applyPayment db newId method reference amount alloc).1.allocations
          = db.allocations) := by
  have hno : ¬ (alloc.map Prod.snd).sum > amount + paymentEpsilon := not_lt.mpr hsum
  simp only [applyPayment, api_insert_payment, if_neg hno]
  by_cases hempty : (allocRows newId alloc).isEmpty
  · have hnil : allocRows newId alloc = [] := List.isEmpty_iff.mp hempty
    simp [hempty, hnil]
  · simp only [hempty, Bool.false_eq_true, if_false]
    by_cases hfk : (allocRows newId alloc).all
        (fun r => db.invoices.any (fun i => i.id == r.invoice_id)) = true
    · simp [hfk]
    · simp [hfk]

/-- C2 amended, witness: a fully successful call on the open invoice. -/
theorem applyPayment_behavior_witness :
    (applyPayment dbOpen 1 "check" "" 50 [(1, 50)]).1.invoices = dbOpen.invoices
    ∧ (applyPayment dbOpen 1 "check" "" 50 [(1, 50)]).1.audit = dbOpen.audit
    ∧ (applyPayment dbOpen 1 "check" "" 50 [(1, 50)]).1.payments
        = dbOpen.payments ++ [⟨1, 50, "check", ""⟩]
    ∧ ((applyPayment dbOpen 1 "check" "" 50 [(1, 50)]).2 = ApplyResult.ok →
        (applyPayment dbOpen 1 "check" "" 50 [(1, 50)]).1.allocations
          = dbOpen.allocations ++ allocRows 1 [(1, 50)])
    ∧ ((applyPayment dbOpen 1 "check" "" 50 [(1, 50)]).2 = ApplyResult.insertErr →
        (applyPayment dbOpen 1 "check" "" 50 [(1, 50)]).1.allocations
          = dbOpen.allocations) :=
  applyPayment_behavior dbOpen 1 "check" "" 50 [(1, 50)]
    (by norm_num [paymentEpsilon])

/-! ### C7 — over-allocation handling -/

/-- C7 counterexample.  The invoice-side bound is enforced by silently
clamping the typed amount to the stored balance (150 becomes 100), not by an
OverAllocation rejection; and on the payment side an allocated total of
1.0000001 against a payment of 1 passes the epsilon check, so the submission
succeeds and the payment carries an allocation sum strictly above its
amount. -/
theorem overallocation_clamped_not_rejected :
    setAllocFor 100 (some 150) = 100
    ∧ (applyPayment dbOpen 1 "check" "" 1 [(1, 10000001/10000000)]).2 = ApplyResult.ok
    ∧ activeAllocSumPayment (applyPayment dbOpen 1 "check" "" 1 [(1, 10000001/10000000)]).1 1
        = 10000001/10000000
    ∧ ((10000001 : ℚ)/10000000 > 1) := by
  have hev : applyPayment dbOpen 1 "check" "" 1 [(1, 10000001/10000000)]
      = (⟨[⟨1, 100, 0, 100, "open", false⟩], [⟨1, 1, "check", ""⟩],
          [⟨1, 1, 10000001/10000000, false⟩], []⟩, ApplyResult.ok) := by
    norm_num [applyPayment, api_insert_payment, allocRows, dbOpen, paymentEpsilon, List.filter]
  refine ⟨by norm_num [setAllocFor], ?_, ?_, by norm_num⟩
  · rw [hev]
  · rw [hev]
    norm_num [activeAllocSumPayment, List.filter]

/-- C7 amended.  The input handler clamps each per-invoice amount into the
interval from 0 to the stored invoice balance (silent clamp, no rejection);
the only rejection at submit time is the payment-side check against
`amount + 1e-6`, so on success the allocation sum carried by the new payment
is bounded by `amount + 1e-6` (and may therefore exceed the payment amount by
up to the epsilon, but no further). -/
theorem allocation_clamp_and_epsilon_bound
    (bal raw : ℚ) (hb : 0 ≤ bal)
    (db : DB) (newId : Nat) (method reference : String) (amount : ℚ)
    (alloc : List (Nat × ℚ))
    (hnn : ∀ e ∈ alloc, 0 ≤ e.2)
    (hfresh : ∀ a ∈ db.allocations, a.payment_id ≠ newId) :
    (setAllocFor bal (some raw) = min (max raw 0) bal
      ∧ 0 ≤ setAllocFor bal (some raw) ∧ setAllocFor bal (some raw) ≤ bal)
    ∧ ((applyPayment db newId method reference amount alloc).2 = ApplyResult.ok →
        activeAllocSumPayment (applyPayment db newId method reference amount alloc).1 newId
          ≤ amount + paymentEpsilon) := by
  constructor
  · simp only [setAllocFor, Option.getD_some]
    split_ifs with h1 h2 h2
    · exact absurd h2 (not_lt.mpr hb)
    · exact ⟨by rw [max_eq_right (le_of_lt h1), min_eq_left hb], le_refl 0, hb⟩
    · exact ⟨by rw [max_eq_left (not_lt.mp h1), min_eq_right (le_of_lt h2)], hb, le_refl bal⟩
    · exact ⟨by rw [max_eq_left (not_lt.mp h1), min_eq_left (not_lt.mp h2)],
        not_lt.mp h1, not_lt.mp h2⟩
  · intro hok
    have hsumnn : 0 ≤ (alloc.map Prod.snd).sum := by
      apply List.sum_nonneg
      intro x hx
      rcases List.mem_map.mp hx with ⟨e, he, rfl⟩
      exact hnn e he
    by_cases hover : (alloc.map Prod.snd).sum > amount + paymentEpsilon
    · exfalso
      simp only [applyPayment, if_pos hover] at hok
      cases hok
    have hsum : (alloc.map Prod.snd).sum ≤ amount + paymentEpsilon := not_lt.mp hover
    have hdbzero : ((db.allocations.filter
        (fun a => a.payment_id == newId && !a.deleted)).map Allocation.amount).sum = 0 := by
      rw [List.filter_eq_nil_iff.mpr ?_]
      · rfl
      · intro a ha
        simp [hfresh a ha]
    simp only [applyPayment, api_insert_payment, if_neg hover] at hok ⊢
    by_cases hempty : (allocRows newId alloc).isEmpty
    · simp only [hempty, if_true]
      simp only [activeAllocSumPayment]
      rw [hdbzero]
      linarith
    · simp only [hempty, Bool.false_eq_true, if_false] at hok ⊢
      by_cases hfk : (allocRows newId alloc).all
          (fun r => db.invoices.any (fun i => i.id == r.invoice_id)) = true
      · simp only [hfk, if_true]
        simp only [activeAllocSumPayment, List.filter_append, List.map_append, List.sum_append]
        rw [hdbzero]
        have hkeep : (allocRows newId alloc).filter
            (fun a => a.payment_id == newId && !a.deleted) = allocRows newId alloc := by
          apply List.filter_eq_self.mpr
          intro a ha
          obtain ⟨hpid, hdel⟩ := allocRows_fields newId alloc a ha
          simp [hpid, hdel]
        rw [hkeep, allocRows_sum newId alloc hnn]
        linarith
      · simp only [hfk, Bool.false_eq_true, if_false] at hok
        cases hok

/-- C7 amended, witness: clamp at balance 100 with input 150, and the bound
after the successful application of the counterexample call. -/
theorem allocation_clamp_and_epsilon_bound_witness :
    (setAllocFor 100 (some 150) = min (max 150 0) 100
      ∧ (0:ℚ) ≤ setAllocFor 100 (some 150) ∧ setAllocFor 100 (some 150) ≤ 100)
    ∧ ((applyPayment dbOpen 1 "check" "" 1 [(1, 10000001/10000000)]).2 = ApplyResult.ok →
        activeAllocSumPayment
            (applyPayment dbOpen 1 "check" "" 1 [(1, 10000001/10000000)]).1 1
          ≤ 1 + paymentEpsilon) :=
  allocation_clamp_and_epsilon_bound 100 150 (by norm_num) dbOpen 1 "check" "" 1
    [(1, 10000001/10000000)] (by norm_num) (by norm_num [dbOpen])

/-! ### C5 — VoidInvoice -/

theorem alloc_sum_split (l : List Allocation) (pid invId : Nat) :
    ((l.filter (fun a => a.payment_id == pid && !a.deleted)).map Allocation.amount).sum
      = (((l.filter (fun a => !(a.invoice_id == invId))).filter
            (fun a => a.payment_id == pid && !a.deleted)).map Allocation.amount).sum
        + ((l.filter (fun a => a.payment_id == pid && a.invoice_id == invId && !a.deleted)).map
            Allocation.amount).sum := by
  induction l with
  | nil => simp
  | cons a t ih =>
    by_cases h1 : a.payment_id = pid <;> by_cases h2 : a.invoice_id = invId <;>
      by_cases h3 : a.deleted <;>
      simp [List.filter_cons, h1, h2, h3, ih] <;> ring

/-- C5.  A successful `voidInvoice` removes every allocation of the invoice
and keeps every other allocation; it leaves the payments table untouched and,
for each payment, grows its remaining allocatable room by exactly the active
amounts that payment had allocated to the voided invoice; the touched invoice
rows get subtotal 0, tax 0 (hence total 0), balance 0 and status void; and
exactly one `void_invoice` audit event is appended, carrying the optional
reason as its note (an empty prompt answer becomes a null note). -/
theorem voidInvoice_spec (db : DB) (invId : Nat) (reason : String)
    (hany : (db.invoices.any fun i => i.id == invId && !i.deleted) = true) :
    (voidInvoice db invId reason).2 = true
    ∧ (∀ a ∈ (voidInvoice db invId reason).1.allocations, a.invoice_id ≠ invId)
    ∧ (∀ a ∈ db.allocations, a.invoice_id ≠ invId →
        a ∈ (voidInvoice db invId reason).1.allocations)
    ∧ (voidInvoice db invId reason).1.payments = db.payments
    ∧ (∀ i ∈ (voidInvoice db invId reason).1.invoices, i.id = invId → i.deleted = false →
        i.subtotal = 0 ∧ i.tax = 0 ∧ i.total = 0 ∧ i.balance = 0 ∧ i.status = "void")
    ∧ (voidInvoice db invId reason).1.audit
        = db.audit ++ [⟨invId, "void_invoice", (if reason = "" then none else some reason),
            none, none⟩]
    ∧ (∀ p ∈ db.payments, paymentRoom (voidInvoice db invId reason).1 p
        = paymentRoom db p
          + ((db.allocations.filter
              (fun a => a.payment_id == p.id && a.invoice_id == invId && !a.deleted)).map
             Allocation.amount).sum) := by
  rw [voidInvoice_eq_of_success db invId reason hany]
  refine ⟨rfl, ?_, ?_, rfl, ?_, rfl, ?_⟩
  · intro a ha
    have h := (List.mem_filter.mp ha).2
    simpa using h
  · intro a ha hne
    exact List.mem_filter.mpr ⟨ha, by simpa using hne⟩
  · intro i hi hid hdel
    rcases List.mem_map.mp hi with ⟨i0, hi0, rfl⟩
    by_cases hc : (i0.id == invId && !i0.deleted) = true
    · rw [if_pos hc]
      exact ⟨rfl, rfl, by simp [Invoice.total], rfl, rfl⟩
    · rw [if_neg hc] at hid hdel
      exact absurd (by simp [hid, hdel]) hc
  · intro p hp
    simp only [paymentRoom, activeAllocSumPayment]
    rw [alloc_sum_split db.allocations p.id invId]
    ring

/-- C5 witness instantiating Scenario D. -/
theorem voidInvoice_spec_witness :
    (voidInvoice dbScenarioD 1 "duplicate").2 = true
    ∧ (∀ a ∈ (voidInvoice dbScenarioD 1 "duplicate").1.allocations, a.invoice_id ≠ 1)
    ∧ (∀ a ∈ dbScenarioD.allocations, a.invoice_id ≠ 1 →
        a ∈ (voidInvoice dbScenarioD 1 "duplicate").1.allocations)
    ∧ (voidInvoice dbScenarioD 1 "duplicate").1.payments = dbScenarioD.payments
    ∧ (∀ i ∈ (voidInvoice dbScenarioD 1 "duplicate").1.invoices, i.id = 1 →
        i.deleted = false →
        i.subtotal = 0 ∧ i.tax = 0 ∧ i.total = 0 ∧ i.balance = 0 ∧ i.status = "void")
    ∧ (voidInvoice dbScenarioD 1 "duplicate").1.audit
        = dbScenarioD.audit ++ [⟨1, "void_invoice",
            (if "duplicate" = "" then none else some "duplicate"), none, none⟩]
    ∧ (∀ p ∈ dbScenarioD.payments, paymentRoom (voidInvoice dbScenarioD 1 "duplicate").1 p
        = paymentRoom dbScenarioD p
          + ((dbScenarioD.allocations.filter
              (fun a => a.payment_id == p.id && a.invoice_id == 1 && !a.deleted)).map
             Allocation.amount).sum) :=
  voidInvoice_spec dbScenarioD 1 "duplicate" (by simp [dbScenarioD])

/-! ### C8 — aging report: infrastructure -/

theorem map_update_id (t : List BucketGroup) (b : String) (upd : BucketGroup → BucketGroup)
    (h : ∀ g ∈ t, g.label ≠ b) :
    t.map (fun g => if g.label == b then upd g else g) = t := by
  induction t with
  | nil => rfl
  | cons g tl ih =>
    have hg : ¬ (g.label == b) = true := by
      simpa using h g (List.mem_cons_self g tl)
    rw [List.map_cons, if_neg hg, ih (fun x hx => h x (List.mem_cons_of_mem g hx))]

theorem groupMeasure_nil_of_absent {M : Type} [AddCommMonoid M] (φ : BucketGroup → M)
    (t : List BucketGroup) (l : String) (h : ∀ g ∈ t, g.label ≠ l) :
    groupMeasure φ t l = 0 := by
  unfold groupMeasure
  rw [List.filter_eq_nil_iff.mpr (fun g hg => by simpa using h g hg)]
  rfl

theorem groupMeasure_map_update {M : Type} [AddCommMonoid M] (φ : BucketGroup → M) (c : M)
    (upd : BucketGroup → BucketGroup) (b : String)
    (hlab : ∀ g, (upd g).label = g.label)
    (hphi : ∀ g, φ (upd g) = φ g + c) :
    ∀ (acc : List BucketGroup), (acc.map BucketGroup.label).Nodup →
      acc.any (fun g => g.label == b) = true → ∀ l,
      groupMeasure φ (acc.map (fun g => if g.label == b then upd g else g)) l
        = groupMeasure φ acc l + (if b = l then c else 0) := by
  intro acc
  induction acc with
  | nil => intro _ hpres; cases hpres
  | cons g t ih =>
    intro hN hpres l
    have hN2 : (∀ x ∈ t, ¬ x.label = g.label) ∧ (t.map BucketGroup.label).Nodup := by
      simpa using hN
    by_cases hgb : g.label = b
    · have hbt : ∀ x ∈ t, x.label ≠ b := fun x hx hxb => hN2.1 x hx (hxb.trans hgb.symm)
      rw [List.map_cons, if_pos (by simpa using hgb), map_update_id t b upd hbt]
      by_cases hgl : g.label = l
      · have hbl : b = l := hgb ▸ hgl
        unfold groupMeasure
        rw [List.filter_cons, List.filter_cons]
        rw [if_pos (by simp [hlab, hgl]), if_pos (by simp [hgl])]
        simp only [List.map_cons, List.sum_cons, hphi, if_pos hbl]
        rw [add_right_comm]
      · have hbl : ¬ b = l := fun h => hgl (hgb.trans h)
        unfold groupMeasure
        rw [List.filter_cons, List.filter_cons]
        rw [if_neg (by simp [hlab, hgl]), if_neg (by simp [hgl])]
        simp [if_neg hbl]
    · have hpres2 : t.any (fun x => x.label == b) = true := by
        rcases List.any_eq_true.mp hpres with ⟨x, hx, hxb⟩
        rcases List.mem_cons.mp hx with rfl | hx2
        · exact absurd (by simpa using hxb) hgb
        · exact List.any_eq_true.mpr ⟨x, hx2, hxb⟩
      rw [List.map_cons, if_neg (by simpa using hgb)]
      unfold groupMeasure
      rw [List.filter_cons, List.filter_cons]
      by_cases hgl : g.label = l
      · rw [if_pos (by simpa using hgl), if_pos (by simpa using hgl)]
        simp only [List.map_cons, List.sum_cons]
        have := ih hN2.2 hpres2 l
        unfold groupMeasure at this
        rw [this, add_assoc]
      · rw [if_neg (by simpa using hgl), if_neg (by simpa using hgl)]
        have := ih hN2.2 hpres2 l
        unfold groupMeasure at this
        rw [this]

theorem groupMeasure_groupStep {M : Type} [AddCommMonoid M] (φ : BucketGroup → M)
    (κ : Detail → M) (r : Detail)
    (hupd : ∀ g : BucketGroup,
      φ ⟨g.label, g.total + r.balance, g.count + 1, g.rows ++ [r]⟩ = φ g + κ r)
    (hnew : φ ⟨r.bucket, r.balance, 1, [r]⟩ = κ r)
    (acc : List BucketGroup) (hN : (acc.map BucketGroup.label).Nodup) (l : String) :
    groupMeasure φ (groupStep acc r) l
      = groupMeasure φ acc l
        + (if (r.bucket == l && !(r.bucket == "Paid/Zero")) = true then κ r else 0) := by
  unfold groupStep
  by_cases hPZ : r.bucket = "Paid/Zero"
  · rw [if_pos hPZ]
    simp [hPZ]
  · rw [if_neg hPZ]
    by_cases hpres : (acc.any fun g => g.label == r.bucket) = true
    · rw [if_pos hpres]
      have h := groupMeasure_map_update φ (κ r)
        (fun g => ⟨g.label, g.total + r.balance, g.count + 1, g.rows ++ [r]⟩) r.bucket
        (fun g => rfl) hupd acc hN hpres l
      rw [h]
      by_cases hbl : r.bucket = l
      · rw [if_pos hbl, if_pos (by simp [hbl]; exact hbl ▸ hPZ)]
      · rw [if_neg hbl, if_neg (by simp [hbl])]
    · rw [if_neg hpres]
      unfold groupMeasure
      rw [List.filter_append, List.map_append, List.sum_append]
      by_cases hbl : r.bucket = l
      · rw [if_pos (by simp [hbl]; exact hbl ▸ hPZ)]
        have hsing : ((([(⟨r.bucket, r.balance, 1, [r]⟩ : BucketGroup)]).filter
            (fun g => g.label == l)).map φ).sum = κ r := by
          rw [List.filter_cons, if_pos (by simpa using hbl)]
          simpa using hnew
        rw [hsing]
      · rw [if_neg (by simp [hbl])]
        have hsing : ((([(⟨r.bucket, r.balance, 1, [r]⟩ : BucketGroup)]).filter
            (fun g => g.label == l)).map φ).sum = 0 := by
          rw [List.filter_cons, if_neg (by simpa using hbl)]
          rfl
        rw [hsing]

theorem groupStep_labels (acc : List BucketGroup) (r : Detail) :
    (groupStep acc r).map BucketGroup.label = acc.map BucketGroup.label
    ∨ (groupStep acc r).map BucketGroup.label = acc.map BucketGroup.label ++ [r.bucket] := by
  unfold groupStep
  by_cases hPZ : r.bucket = "Paid/Zero"
  · rw [if_pos hPZ]
    exact Or.inl rfl
  · rw [if_neg hPZ]
    by_cases hpres : (acc.any fun g => g.label == r.bucket) = true
    · rw [if_pos hpres]
      left
      rw [List.map_map]
      apply List.map_congr_left
      intro g _
      simp only [Function.comp]
      split <;> rfl
    · rw [if_neg hpres]
      right
      simp

theorem groupStep_nodup (acc : List BucketGroup) (r : Detail)
    (hN : (acc.map BucketGroup.label).Nodup) :
    ((groupStep acc r).map BucketGroup.label).Nodup := by
  rcases groupStep_labels acc r with h | h
  · rw [h]; exact hN
  · rw [h]
    by_cases hPZ : r.bucket = "Paid/Zero"
    · exfalso
      have : groupStep acc r = acc := by unfold groupStep; rw [if_pos hPZ]
      rw [this] at h
      have := congrArg List.length h
      simp at this
    · have hpres : ¬ (acc.any fun g => g.label == r.bucket) = true := by
        intro hp
        have hstep : groupStep acc r = acc.map (fun g =>
            if g.label == r.bucket then
              (⟨g.label, g.total + r.balance, g.count + 1, g.rows ++ [r]⟩ : BucketGroup)
            else g) := by
          unfold groupStep
          rw [if_neg hPZ, if_pos hp]
        rw [hstep] at h
        have hlen := congrArg List.length h
        simp only [List.length_map, List.length_append, List.length_cons,
          List.length_nil] at hlen
        omega
      have hnotmem : r.bucket ∉ acc.map BucketGroup.label := by
        intro hm
        rcases List.mem_map.mp hm with ⟨g, hg, hgl⟩
        exact hpres (List.any_eq_true.mpr ⟨g, hg, by simp [hgl]⟩)
      simp [List.nodup_append, hN, hnotmem]

theorem groupStep_no_pz (acc : List BucketGroup) (r : Detail)
    (h : ∀ g ∈ acc, g.label ≠ "Paid/Zero") :
    ∀ g ∈ groupStep acc r, g.label ≠ "Paid/Zero" := by
  intro g hg
  unfold groupStep at hg
  by_cases hPZ : r.bucket = "Paid/Zero"
  · rw [if_pos hPZ] at hg
    exact h g hg
  · rw [if_neg hPZ] at hg
    by_cases hpres : (acc.any fun g => g.label == r.bucket) = true
    · rw [if_pos hpres] at hg
      rcases List.mem_map.mp hg with ⟨g0, hg0, rfl⟩
      by_cases hgb : (g0.label == r.bucket) = true
      · simp only [hgb, if_true]
        exact h g0 hg0
      · simp only [hgb, Bool.false_eq_true, if_false]
        exact h g0 hg0
    · rw [if_neg hpres] at hg
      rcases List.mem_append.mp hg with hg2 | hg2
      · exact h g hg2
      · simp only [List.mem_singleton] at hg2
        subst hg2
        exact hPZ

theorem groupMeasure_foldl {M : Type} [AddCommMonoid M] (φ : BucketGroup → M)
    (κ : Detail → M)
    (hupd : ∀ (r : Detail) (g : BucketGroup),
      φ ⟨g.label, g.total + r.balance, g.count + 1, g.rows ++ [r]⟩ = φ g + κ r)
    (hnew : ∀ r : Detail, φ ⟨r.bucket, r.balance, 1, [r]⟩ = κ r)
    (rows : List Detail) :
    ∀ acc, (acc.map BucketGroup.label).Nodup → ∀ l,
      groupMeasure φ (rows.foldl groupStep acc) l
        = groupMeasure φ acc l
          + ((rows.filter
              (fun r => r.bucket == l && !(r.bucket == "Paid/Zero"))).map κ).sum := by
  induction rows with
  | nil => intro acc _ l; simp
  | cons r t ih =>
    intro acc hN l
    rw [List.foldl_cons]
    rw [ih (groupStep acc r) (groupStep_nodup acc r hN) l]
    rw [groupMeasure_groupStep φ κ r (hupd r) (hnew r) acc hN l]
    rw [List.filter_cons]
    by_cases hc : (r.bucket == l && !(r.bucket == "Paid/Zero")) = true
    · rw [if_pos hc, if_pos hc]
      simp [add_assoc]
    · rw [if_neg hc, if_neg hc]
      simp

theorem groupMeasure_of_mem {M : Type} [AddCommMonoid M] (φ : BucketGroup → M)
    (gs : List BucketGroup) (hN : (gs.map BucketGroup.label).Nodup)
    (g : BucketGroup) (hg : g ∈ gs) :
    groupMeasure φ gs g.label = φ g := by
  induction gs with
  | nil => cases hg
  | cons g0 t ih =>
    have hN2 : (∀ x ∈ t, ¬ x.label = g0.label) ∧ (t.map BucketGroup.label).Nodup := by
      simpa using hN
    rcases List.mem_cons.mp hg with rfl | hg2
    · unfold groupMeasure
      rw [List.filter_cons, if_pos (by simp)]
      rw [List.filter_eq_nil_iff.mpr (fun x hx => by simpa using hN2.1 x hx)]
      simp
    · unfold groupMeasure
      rw [List.filter_cons, if_neg (by
        simp only [beq_iff_eq]
        intro heq
        exact hN2.1 g hg2 (heq.symm ▸ rfl))]
      have := ih hN2.2 hg2
      unfold groupMeasure at this
      exact this

theorem groupMeasure_perm {M : Type} [AddCommMonoid M] (φ : BucketGroup → M)
    {gs₁ gs₂ : List BucketGroup} (h : gs₁.Perm gs₂) (l : String) :
    groupMeasure φ gs₁ l = groupMeasure φ gs₂ l := by
  unfold groupMeasure
  exact List.Perm.sum_eq (List.Perm.map φ (List.Perm.filter (fun g => g.label == l) h))

theorem foldl_groupStep_nodup (rows : List Detail) :
    ∀ acc, (acc.map BucketGroup.label).Nodup →
      ((rows.foldl groupStep acc).map BucketGroup.label).Nodup := by
  induction rows with
  | nil => intro acc h; exact h
  | cons r t ih =>
    intro acc h
    rw [List.foldl_cons]
    exact ih (groupStep acc r) (groupStep_nodup acc r h)

theorem foldl_groupStep_no_pz (rows : List Detail) :
    ∀ acc, (∀ g ∈ acc, g.label ≠ "Paid/Zero") →
      ∀ g ∈ rows.foldl groupStep acc, g.label ≠ "Paid/Zero" := by
  induction rows with
  | nil => intro acc h; exact h
  | cons r t ih =>
    intro acc h
    rw [List.foldl_cons]
    exact ih (groupStep acc r) (groupStep_no_pz acc r h)

theorem sum_map_one {α : Type} (l : List α) : (l.map (fun _ => (1:ℕ))).sum = l.length := by
  induction l with
  | nil => rfl
  | cons x t ih => simp [ih, Nat.add_comm]

theorem bucketLe_trans :
    ∀ a b c : BucketGroup, bucketLe a b = true → bucketLe b c = true → bucketLe a c = true := by
  intro a b c hab hbc
  simp only [bucketLe, decide_eq_true_eq] at *
  omega

theorem bucketLe_total : ∀ a b : BucketGroup, (bucketLe a b || bucketLe b a) = true := by
  intro a b
  simp only [bucketLe, Bool.or_eq_true, decide_eq_true_eq]
  omega

theorem companyLe_iff (x y : CompanyRow) :
    companyLe x y = true ↔ (y.total < x.total ∨ (y.total = x.total ∧ x.company ≤ y.company)) := by
  unfold companyLe
  by_cases h : x.total = y.total
  · rw [if_pos h]
    simp [h, lt_irrefl]
  · rw [if_neg h]
    constructor
    · intro hd
      exact Or.inl (by simpa using hd)
    · intro hor
      rcases hor with hlt | ⟨he, _⟩
      · simpa using hlt
      · exact absurd he.symm h

theorem companyLe_trans :
    ∀ x y z : CompanyRow, companyLe x y = true → companyLe y z = true → companyLe x z = true := by
  intro x y z hxy hyz
  rw [companyLe_iff] at *
  rcases hxy with h | ⟨he, hn⟩ <;> rcases hyz with h2 | ⟨he2, hn2⟩
  · exact Or.inl (h2.trans h)
  · exact Or.inl (lt_of_le_of_lt (le_of_eq he2) h)
  · exact Or.inl (lt_of_lt_of_le h2 (le_of_eq he))
  · exact Or.inr ⟨he2.trans he, hn.trans hn2⟩

theorem companyLe_total : ∀ x y : CompanyRow, (companyLe x y || companyLe y x) = true := by
  intro x y
  rw [Bool.or_eq_true, companyLe_iff, companyLe_iff]
  rcases lt_trichotomy x.total y.total with h | h | h
  · exact Or.inr (Or.inl h)
  · rcases le_total x.company y.company with hn | hn
    · exact Or.inl (Or.inr ⟨h.symm, hn⟩)
    · exact Or.inr (Or.inr ⟨h, hn⟩)
  · exact Or.inl (Or.inl h)

theorem companyStep_pz (meta : Nat → Option String) (acc : List CompanyRow) (r : Detail)
    (h : r.bucket = "Paid/Zero") : companyStep meta acc r = acc := by
  unfold companyStep
  rw [if_pos h]

theorem foldl_companyStep_filter (meta : Nat → Option String) (rows : List Detail) :
    ∀ acc, rows.foldl (companyStep meta) acc
      = (rows.filter (fun r => !(r.bucket == "Paid/Zero"))).foldl (companyStep meta) acc := by
  induction rows with
  | nil => intro acc; rfl
  | cons r t ih =>
    intro acc
    rw [List.foldl_cons, List.filter_cons]
    by_cases hPZ : r.bucket = "Paid/Zero"
    · rw [companyStep_pz meta acc r hPZ, if_neg (by simp [hPZ])]
      exact ih acc
    · rw [if_pos (by simp [hPZ]), List.foldl_cons]
      exact ih (companyStep meta acc r)

/-- C8.  In the aging report, every bucket group of the summary has a label
other than Paid/Zero and carries exactly the balance sum and the row count of
the input rows with that bucket (so rows tagged Paid/Zero are excluded from
every total and count); the groups are ordered by the fixed bucket order
Current (0-30), 31-60, 61-90, 91+; the per-company breakdown ignores
Paid/Zero rows; and its rows are sorted descending by grand total with ties
broken ascending by company name. -/
theorem aging_summary_spec (rows : List Detail) (meta : Nat → Option String) :
    (∀ g ∈ groupsFn rows, g.label ≠ "Paid/Zero"
      ∧ g.total = ((rows.filter (fun r => r.bucket == g.label)).map Detail.balance).sum
      ∧ g.count = (rows.filter (fun r => r.bucket == g.label)).length)
    ∧ (groupsFn rows).Pairwise (fun a b => bucketIdx a.label ≤ bucketIdx b.label)
    ∧ byCompanyAllBuckets meta rows
        = byCompanyAllBuckets meta (rows.filter (fun r => !(r.bucket == "Paid/Zero")))
    ∧ (byCompanyAllBuckets meta rows).Pairwise
        (fun x y => y.total < x.total ∨ (y.total = x.total ∧ x.company ≤ y.company)) := by
  refine ⟨?_, ?_, ?_, ?_⟩
  · intro g hg
    have hgF : g ∈ rows.foldl groupStep [] := by
      have := hg
      unfold groupsFn at this
      exact List.mem_mergeSort.mp this
    have hNF : ((rows.foldl groupStep []).map BucketGroup.label).Nodup :=
      foldl_groupStep_nodup rows [] (by simp)
    have hpz : g.label ≠ "Paid/Zero" :=
      foldl_groupStep_no_pz rows [] (by simp) g hgF
    have hfc : rows.filter (fun r => r.bucket == g.label && !(r.bucket == "Paid/Zero"))
        = rows.filter (fun r => r.bucket == g.label) := by
      apply List.filter_congr
      intro r _
      by_cases hb : r.bucket = g.label
      · simp [hb, hpz]
      · simp [hb]
    refine ⟨hpz, ?_, ?_⟩
    · have h1 := groupMeasure_of_mem BucketGroup.total (rows.foldl groupStep []) hNF g hgF
      have h2 := groupMeasure_foldl BucketGroup.total Detail.balance
        (fun r g => rfl) (fun r => rfl) rows [] (by simp) g.label
      rw [h1] at h2
      rw [h2]
      rw [hfc]
      simp [groupMeasure]
    · have h1 := groupMeasure_of_mem BucketGroup.count (rows.foldl groupStep []) hNF g hgF
      have h2 := groupMeasure_foldl BucketGroup.count (fun _ => (1:ℕ))
        (fun r g => rfl) (fun r => rfl) rows [] (by simp) g.label
      rw [h1] at h2
      rw [h2]
      rw [hfc]
      simp [groupMeasure, sum_map_one]
  · have h := List.sorted_mergeSort bucketLe_trans bucketLe_total (rows.foldl groupStep [])
    unfold groupsFn
    exact h.imp (fun hab => by simpa [bucketLe] using hab)
  · unfold byCompanyAllBuckets
    rw [foldl_companyStep_filter]
  · have h := List.sorted_mergeSort companyLe_trans companyLe_total
      (rows.foldl (companyStep meta) [])
    unfold byCompanyAllBuckets
    exact h.imp (fun hab => (companyLe_iff _ _).mp hab)

/-- C8 witness at a concrete report input. -/
theorem aging_summary_spec_witness :
    (∀ g ∈ groupsFn agingRowsW, g.label ≠ "Paid/Zero"
      ∧ g.total = ((agingRowsW.filter (fun r => r.bucket == g.label)).map Detail.balance).sum
      ∧ g.count = (agingRowsW.filter (fun r => r.bucket == g.label)).length)
    ∧ (groupsFn agingRowsW).Pairwise (fun a b => bucketIdx a.label ≤ bucketIdx b.label)
    ∧ byCompanyAllBuckets agingMetaW agingRowsW
        = byCompanyAllBuckets agingMetaW
            (agingRowsW.filter (fun r => !(r.bucket == "Paid/Zero")))
    ∧ (byCompanyAllBuckets agingMetaW agingRowsW).Pairwise
        (fun x y => y.total < x.total ∨ (y.total = x.total ∧ x.company ≤ y.company)) :=
  aging_summary_spec agingRowsW agingMetaW

end HotelAR
